import Mathlib

/-!
Verification development for the remote-printing backend (`backend/app.py`).

The embedding models the print-job lifecycle core: the `lp`-output parsing
heuristic of `_run_ipp_print`, the filename sanitizer applied on upload
(werkzeug's `secure_filename`, POSIX branch, restricted to ASCII inputs where
Unicode NFKD normalization is the identity), job submission (`submit_print`),
the asynchronous simulated completion (`_async_mock_complete`) and the status
query (`job_status`).  External effects are modelled explicitly: the outcome
of the spawned `lp` process is a `ClientResult` value supplied by the
environment, and the database is a partial map from primary keys to job rows.
-/

namespace RemotePrinting

/-- Python `str.isdigit()` on a list of characters: non-empty and all decimal
digits. -/
def pyIsDigit (l : List Char) : Bool := !l.isEmpty && l.all Char.isDigit

/-- Python `str.strip()` with no argument: drop leading and trailing
whitespace. -/
def pyStrip (l : List Char) : List Char :=
  ((l.dropWhile Char.isWhitespace).reverse.dropWhile Char.isWhitespace).reverse

/-- Worker for Python `str.split()` with no argument: split on runs of
whitespace, producing no empty pieces.  `acc` holds the current (reversed)
in-progress token. -/
def wsSplitAux : List Char → List Char → List String
  | [], acc => if acc.isEmpty then [] else [String.mk acc.reverse]
  | c :: cs, acc =>
    if c.isWhitespace then
      if acc.isEmpty then wsSplitAux cs [] else String.mk acc.reverse :: wsSplitAux cs []
    else wsSplitAux cs (c :: acc)

/-- Python `out.split()`: whitespace-delimited tokens of `out`. -/
def pySplitWS (s : String) : List String := wsSplitAux s.data []

/-- Worker for Python `str.split(sep)` with a one-character separator. -/
def splitOnCharAux (sep : Char) : List Char → List Char → List (List Char)
  | [], acc => [acc.reverse]
  | c :: cs, acc =>
    if c = sep then acc.reverse :: splitOnCharAux sep cs []
    else splitOnCharAux sep cs (c :: acc)

/-- Python `str.split(sep)` for a one-character separator string. -/
def pySplitChar (sep : Char) (l : List Char) : List (List Char) :=
  splitOnCharAux sep l []

/-- The token test of the extraction loop in `_run_ipp_print`:
`"-" in part and part.split("-")[-1].isdigit()`. -/
def isJobToken (part : String) : Bool :=
  part.data.contains '-' && pyIsDigit ((pySplitChar '-' part.data).getLastD [])

/-- The `for part in out.split(): ... break` loop of `_run_ipp_print`: the
first token passing `isJobToken` is taken (after `part.strip()`). -/
def findJobToken : List String → Option String
  | [] => none
  | p :: ps => if isJobToken p then some (String.mk (pyStrip p.data)) else findJobToken ps

/-- Job-identifier extraction from the `lp` client's captured output, as the
code performs it (first matching token). -/
def extractJobId (out : String) : Option String :=
  findJobToken (pySplitWS out)

/-- Modelled from the spec's words, for comparison with `extractJobId`: the
LAST whitespace-delimited token that contains a separator and ends in a
numeric suffix. -/
def extractJobIdSpec (out : String) : Option String :=
  findJobToken (pySplitWS out).reverse

/-- Character class kept by werkzeug's `_filename_ascii_strip_re`
substitution: `[A-Za-z0-9_.-]`. -/
def allowedFnameChar (c : Char) : Bool :=
  c.isAlphanum || c = '_' || c = '.' || c = '-'

/-- Python `str.strip("._")`: drop leading and trailing dots and
underscores. -/
def stripDotUnderscore (l : List Char) : List Char :=
  ((l.dropWhile fun c => c = '.' || c = '_').reverse.dropWhile
    fun c => c = '.' || c = '_').reverse

/-- Join a token list with underscores: Python `"_".join(tokens)`. -/
def joinUnderscore : List String → String
  | [] => ""
  | [s] => s
  | s :: rest => s ++ "_" ++ joinUnderscore rest

/-- Werkzeug's `secure_filename` on POSIX, restricted to ASCII inputs (where
the initial NFKD normalization is the identity; non-ASCII characters are
dropped by the `encode("ascii", "ignore")` step): replace `os.sep` (`/`) with
a space, rejoin the whitespace-split pieces with underscores, delete every
character outside `[A-Za-z0-9_.-]`, and strip leading/trailing `.` and `_`. -/
def secure_filename (filename : String) : String :=
  let ascii := filename.data.filter fun c => c.toNat < 128
  let sepReplaced := ascii.map fun c => if c = '/' then ' ' else c
  let joined := joinUnderscore (wsSplitAux sepReplaced [])
  let cleaned := joined.data.filter allowedFnameChar
  String.mk (stripDotUnderscore cleaned)

/-- Process-wide configuration read from the environment: `ENABLE_IPP`,
`PRINTER_NAME`, `PRINTER_URI`. -/
structure Config where
  enableIPP : Bool
  printerName : String
  printerURI : String
deriving Repr, DecidableEq

/-- Outcome of the external `lp` client process, supplied by the environment:
normal exit with captured output, non-zero exit (`CalledProcessError`, with
captured output), or any other fault (timeout, spawn failure) carrying the
Python `str(e)` rendering of the exception. -/
inductive ClientResult where
  | success (out : String)
  | calledProcessError (out : String)
  | fault (msg : String)
deriving Repr, DecidableEq

/-- A row of the `print_jobs` table (the fields the lifecycle touches). -/
structure PrintJob where
  user_id : Nat
  filename : String
  status : String
  error : Option String
  ipp_job_id : Option String
deriving Repr, DecidableEq

/-- The job store: a partial map from primary keys to rows, plus the next
auto-increment key. -/
structure DB where
  jobs : Nat → Option PrintJob
  nextId : Nat

/-- The empty store; SQL auto-increment keys start at 1. -/
def initDB : DB := ⟨fun _ => none, 1⟩

/-- `s.add(job); s.commit()`: insert a fresh row at the next key. -/
def dbInsert (db : DB) (j : PrintJob) : DB × Nat :=
  (⟨fun k => if k = db.nextId then some j else db.jobs k, db.nextId + 1⟩, db.nextId)

/-- `job = s.get(PrintJob, job_id); if job: <mutate>; s.commit()`: one atomic
read-modify-write of the row at `jobId`, a no-op when the row is absent. -/
def dbUpdate (db : DB) (jobId : Nat) (f : PrintJob → PrintJob) : DB :=
  ⟨fun k => if k = jobId then (db.jobs k).map f else db.jobs k, db.nextId⟩

/-- Python truthiness of the optional error string (`if err:`): `None` and
`""` are falsy. -/
def pyTruthy : Option String → Bool
  | none => false
  | some s => s ≠ ""

/-- The `try: subprocess.check_output(...) ...` block of `_run_ipp_print`,
given the client outcome. -/
def lpInvoke : ClientResult → Option String × Option String
  | .success out => (extractJobId out, none)
  | .calledProcessError out => (none, some ("lp failed: " ++ out))
  | .fault msg => (none, some msg)

/-- `_run_ipp_print(local_path)`: returns `(ipp_job_id, error)`.  Mirrors
the guard structure of the code: inactive backend, then `PRINTER_NAME`,
then `PRINTER_URI`, then the configuration error. -/
def _run_ipp_print (cfg : Config) (client : ClientResult) : Option String × Option String :=
  if cfg.enableIPP = false then (none, none)
  else if cfg.printerName ≠ "" then lpInvoke client
  else if cfg.printerURI ≠ "" then lpInvoke client
  else (none, some "No PRINTER_URI or PRINTER_NAME configured")

/-- The row mutation `submit_print` applies after a synchronous IPP dispatch,
with `(ipp_id, err) = _run_ipp_print(path)`:
`if err: job.status="failed"; job.error=err else: job.status="printing";
job.ipp_job_id = ipp_id or ""` (note `if err:` is Python truthiness). -/
def ippApply (cfg : Config) (client : ClientResult) (job : PrintJob) : PrintJob :=
  let r := _run_ipp_print cfg client
  if pyTruthy r.2 then { job with status := "failed", error := r.2 }
  else { job with status := "printing", ipp_job_id := some (r.1.getD "") }

/-- `submit_print`: reject an empty upload filename (400), otherwise insert
the job as `queued` under the sanitized filename, then either apply the
synchronous IPP dispatch outcome or leave the row for the detached
mock-completion thread.  Returns the updated store and the HTTP result
(`some jobId` for 200, `none` for 400). -/
def stepSubmit (cfg : Config) (userId : Nat) (fname : String) (client : ClientResult)
    (db : DB) : DB × Option Nat :=
  if fname = "" then (db, none)
  else
    let ins := dbInsert db ⟨userId, secure_filename fname, "queued", none, none⟩
    if cfg.enableIPP then (dbUpdate ins.1 ins.2 (ippApply cfg client), some ins.2)
    else (ins.1, some ins.2)

/-- `_async_mock_complete(job_id)` after its fixed `time.sleep(2)` delay:
set the row's status to `completed` when the row exists. -/
def stepMockComplete (db : DB) (jobId : Nat) : DB :=
  dbUpdate db jobId fun job => { job with status := "completed" }

/-- Response of `GET /api/jobs/<job_id>`: the row when it exists and is owned
by the caller, `404 not found` otherwise (the same response whether the job
belongs to someone else or does not exist). -/
inductive StatusResponse where
  | ok (id : Nat) (job : PrintJob)
  | notFound
deriving Repr, DecidableEq

/-- `job_status(job_id)`: `filter_by(id=job_id, user_id=request.user_id)`. -/
def job_status (db : DB) (userId jobId : Nat) : StatusResponse :=
  match db.jobs jobId with
  | some job => if job.user_id = userId then .ok jobId job else .notFound
  | none => .notFound

/-- An externally observable lifecycle event: a submission (with the
environment's client outcome, ignored in mock mode) or the firing of a
mock-completion signal for a job id. -/
inductive Event where
  | submit (userId : Nat) (fname : String) (client : ClientResult)
  | mockComplete (jobId : Nat)
deriving Repr, DecidableEq

/-- Apply one event to the store. -/
def step (cfg : Config) (db : DB) : Event → DB
  | .submit u f c => (stepSubmit cfg u f c db).1
  | .mockComplete j => stepMockComplete db j

/-- Run a trace of events from a store. -/
def run (cfg : Config) (db : DB) : List Event → DB
  | [] => db
  | e :: es => run cfg (step cfg db e) es

/-- An event the program can generate under configuration `cfg`:
mock-completion threads are spawned only when `ENABLE_IPP` is false. -/
def wfEventB (cfg : Config) : Event → Bool
  | .submit _ _ _ => true
  | .mockComplete _ => !cfg.enableIPP

/-- A trace of events the program can generate under `cfg`. -/
def WF (cfg : Config) (tr : List Event) : Prop := ∀ e ∈ tr, wfEventB cfg e = true

instance (cfg : Config) (tr : List Event) : Decidable (WF cfg tr) :=
  List.decidableBAll (fun e => wfEventB cfg e = true) tr

/-- Row sanity tying the diagnostic to the status: an absent or empty `error`
exactly when the status is not `failed` (and a present `error` is non-empty
and comes with status `failed`). -/
def errOk (j : PrintJob) : Prop :=
  match j.error with
  | none => j.status ≠ "failed"
  | some m => m ≠ "" ∧ j.status = "failed"

/-- Reachable-store invariant: keys at or above `nextId` are free; in mock
mode every row is `queued` or `completed` with no error and no ipp id; every
row satisfies `errOk`. -/
def Inv (cfg : Config) (db : DB) : Prop :=
  (∀ k, db.nextId ≤ k → db.jobs k = none) ∧
  (cfg.enableIPP = false → ∀ k j, db.jobs k = some j →
    (j.status = "queued" ∨ j.status = "completed") ∧ j.error = none ∧ j.ipp_job_id = none) ∧
  (∀ k j, db.jobs k = some j → errOk j)

/-- Mock-mode configuration used by concrete witnesses. -/
def cfgMock : Config := ⟨false, "", ""⟩

/-- IPP configuration (printer name set) used by concrete witnesses. -/
def cfgIPP : Config := ⟨true, "office", ""⟩

/-- Concrete mock-mode trace used by witnesses: one submission followed by
its asynchronous completion. -/
def demoTr : List Event := [.submit 1 "a.txt" (.success ""), .mockComplete 1]

/-- Concrete IPP-mode trace used by witnesses: one submission whose `lp`
client exits non-zero. -/
def demoTrIPP : List Event := [.submit 1 "a.txt" (.calledProcessError "jam")]

/-- The job row produced by `demoTrIPP`. -/
def demoFailedJob : PrintJob := ⟨1, "a.txt", "failed", some "lp failed: jam", none⟩


theorem pyTruthy_some {s : String} (h : s ≠ "") : pyTruthy (some s) = true := by
  simp [pyTruthy, h]

theorem lp_msg_ne_empty (out : String) : ("lp failed: " ++ out) ≠ "" := by
  intro h
  have h1 := congrArg String.length h
  simp [String.length_append] at h1
  exact absurd h1.1 (by decide)

theorem dbUpdate_jobs (db : DB) (jobId : Nat) (f : PrintJob → PrintJob) (k : Nat) :
    (dbUpdate db jobId f).jobs k = if k = jobId then (db.jobs k).map f else db.jobs k := rfl

theorem dbUpdate_nextId (db : DB) (jobId : Nat) (f : PrintJob → PrintJob) :
    (dbUpdate db jobId f).nextId = db.nextId := rfl

theorem dbInsert_jobs (db : DB) (j : PrintJob) (k : Nat) :
    (dbInsert db j).1.jobs k = if k = db.nextId then some j else db.jobs k := rfl

theorem dbInsert_fst_nextId (db : DB) (j : PrintJob) :
    (dbInsert db j).1.nextId = db.nextId + 1 := rfl

theorem dbInsert_snd (db : DB) (j : PrintJob) : (dbInsert db j).2 = db.nextId := rfl

theorem stepSubmit_snd (cfg : Config) (u : Nat) (f : String) (c : ClientResult) (db : DB)
    (hf : f ≠ "") : (stepSubmit cfg u f c db).2 = some db.nextId := by
  by_cases hm : cfg.enableIPP <;> simp [stepSubmit, hf, hm, dbInsert_snd]

theorem stepSubmit_fst_mock (cfg : Config) (u : Nat) (f : String) (c : ClientResult) (db : DB)
    (hf : f ≠ "") (hm : cfg.enableIPP = false) :
    (stepSubmit cfg u f c db).1 =
      (dbInsert db ⟨u, secure_filename f, "queued", none, none⟩).1 := by
  simp [stepSubmit, hf, hm]

theorem stepSubmit_fst_ipp (cfg : Config) (u : Nat) (f : String) (c : ClientResult) (db : DB)
    (hf : f ≠ "") (hm : cfg.enableIPP = true) :
    (stepSubmit cfg u f c db).1 =
      dbUpdate (dbInsert db ⟨u, secure_filename f, "queued", none, none⟩).1 db.nextId
        (ippApply cfg c) := by
  simp [stepSubmit, hf, hm, dbInsert_snd]

theorem run_ipp_invoke (cfg : Config) (c : ClientResult) (hipp : cfg.enableIPP = true)
    (htgt : cfg.printerName ≠ "" ∨ cfg.printerURI ≠ "") :
    _run_ipp_print cfg c = lpInvoke c := by
  rcases htgt with h | h
  · simp [_run_ipp_print, hipp, h]
  · by_cases hn : cfg.printerName = "" <;> simp [_run_ipp_print, hipp, hn, h]

theorem run_ipp_config_error (cfg : Config) (c : ClientResult) (hipp : cfg.enableIPP = true)
    (hname : cfg.printerName = "") (huri : cfg.printerURI = "") :
    _run_ipp_print cfg c = (none, some "No PRINTER_URI or PRINTER_NAME configured") := by
  simp [_run_ipp_print, hipp, hname, huri]

theorem ippApply_config_error (cfg : Config) (c : ClientResult) (job : PrintJob)
    (hipp : cfg.enableIPP = true) (hname : cfg.printerName = "") (huri : cfg.printerURI = "") :
    ippApply cfg c job =
      { job with status := "failed",
                 error := some "No PRINTER_URI or PRINTER_NAME configured" } := by
  simp [ippApply, run_ipp_config_error cfg c hipp hname huri, pyTruthy_some]

theorem ippApply_nonzero_exit (cfg : Config) (out : String) (job : PrintJob)
    (hipp : cfg.enableIPP = true) (htgt : cfg.printerName ≠ "" ∨ cfg.printerURI ≠ "") :
    ippApply cfg (.calledProcessError out) job =
      { job with status := "failed", error := some ("lp failed: " ++ out) } := by
  simp [ippApply, run_ipp_invoke cfg _ hipp htgt, lpInvoke,
    pyTruthy_some (lp_msg_ne_empty out)]

theorem ippApply_fault (cfg : Config) (msg : String) (job : PrintJob)
    (hipp : cfg.enableIPP = true) (htgt : cfg.printerName ≠ "" ∨ cfg.printerURI ≠ "")
    (hmsg : msg ≠ "") :
    ippApply cfg (.fault msg) job = { job with status := "failed", error := some msg } := by
  simp [ippApply, run_ipp_invoke cfg _ hipp htgt, lpInvoke, pyTruthy_some hmsg]

theorem ippApply_success (cfg : Config) (out : String) (job : PrintJob)
    (hipp : cfg.enableIPP = true) (htgt : cfg.printerName ≠ "" ∨ cfg.printerURI ≠ "") :
    ippApply cfg (.success out) job =
      { job with status := "printing", ipp_job_id := some ((extractJobId out).getD "") } := by
  simp [ippApply, run_ipp_invoke cfg _ hipp htgt, lpInvoke, pyTruthy]

theorem status_set_self (j : PrintJob) (s : String) (h : j.status = s) :
    { j with status := s } = j := by
  cases j
  cases h
  rfl

theorem step_preserves (cfg : Config) (db : DB) (e : Event) (k : Nat) (j : PrintJob)
    (h : db.jobs k = some j) : ∃ j2, (step cfg db e).jobs k = some j2 := by
  cases e with
  | submit u f c =>
    by_cases hf : f = ""
    · exact ⟨j, by simp [step, stepSubmit, hf, h]⟩
    · by_cases hm : cfg.enableIPP
      · by_cases hk : k = db.nextId
        · exact ⟨ippApply cfg c ⟨u, secure_filename f, "queued", none, none⟩, by
            simp [step, stepSubmit_fst_ipp cfg u f c db hf hm, dbUpdate_jobs, dbInsert_jobs, hk]⟩
        · exact ⟨j, by
            simp [step, stepSubmit_fst_ipp cfg u f c db hf hm, dbUpdate_jobs, dbInsert_jobs,
              hk, h]⟩
      · by_cases hk : k = db.nextId
        · exact ⟨⟨u, secure_filename f, "queued", none, none⟩, by
            simp [step, stepSubmit_fst_mock cfg u f c db hf (by simpa using hm), dbInsert_jobs,
              hk]⟩
        · exact ⟨j, by
            simp [step, stepSubmit_fst_mock cfg u f c db hf (by simpa using hm), dbInsert_jobs,
              hk, h]⟩
  | mockComplete jid =>
    by_cases hk : k = jid
    · subst hk
      exact ⟨{ j with status := "completed" }, by
        simp [step, stepMockComplete, dbUpdate_jobs, h]⟩
    · exact ⟨j, by simp [step, stepMockComplete, dbUpdate_jobs, hk, h]⟩

theorem run_preserves (cfg : Config) (tr : List Event) :
    ∀ db k j, db.jobs k = some j → ∃ j2, (run cfg db tr).jobs k = some j2 := by
  induction tr with
  | nil => exact fun db k j h => ⟨j, h⟩
  | cons e es ih =>
    intro db k j h
    obtain ⟨j2, h2⟩ := step_preserves cfg db e k j h
    exact ih (step cfg db e) k j2 h2

theorem errOk_none {j : PrintJob} (he : j.error = none) (hs : j.status ≠ "failed") :
    errOk j := by
  simp [errOk, he]
  exact hs

theorem errOk_some {j : PrintJob} {m : String} (he : j.error = some m) (hm : m ≠ "")
    (hs : j.status = "failed") : errOk j := by
  simp [errOk, he]
  exact ⟨hm, hs⟩

theorem errOk_ippApply (cfg : Config) (c : ClientResult) (job : PrintJob)
    (he : job.error = none) : errOk (ippApply cfg c job) := by
  unfold ippApply
  cases htr : pyTruthy (_run_ipp_print cfg c).2 with
  | false =>
    simp only [htr, if_neg Bool.false_ne_true]
    exact errOk_none (by simp [he]) (by simp)
  | true =>
    cases hr : (_run_ipp_print cfg c).2 with
    | none => rw [hr] at htr; simp [pyTruthy] at htr
    | some s =>
      have hs : s ≠ "" := by rw [hr] at htr; simpa [pyTruthy] using htr
      simp only [htr, if_pos rfl]
      exact errOk_some (m := s) (by simp [hr]) hs (by simp)

theorem inv_init (cfg : Config) : Inv cfg initDB := by
  refine ⟨fun k _ => rfl, fun _ k j h => ?_, fun k j h => ?_⟩ <;> simp [initDB] at h

theorem inv_step (cfg : Config) (db : DB) (e : Event) (hinv : Inv cfg db)
    (he : wfEventB cfg e = true) : Inv cfg (step cfg db e) := by
  obtain ⟨hfresh, hmock, herr⟩ := hinv
  cases e with
  | submit u f c =>
    by_cases hf : f = ""
    · simpa [step, stepSubmit, hf] using ⟨hfresh, hmock, herr⟩
    · cases hm : cfg.enableIPP with
      | false =>
        have hstep : step cfg db (.submit u f c) =
            (dbInsert db ⟨u, secure_filename f, "queued", none, none⟩).1 :=
          stepSubmit_fst_mock cfg u f c db hf hm
        rw [hstep]
        refine ⟨fun k hk => ?_, fun _ k j h => ?_, fun k j h => ?_⟩
        · rw [dbInsert_fst_nextId] at hk
          rw [dbInsert_jobs, if_neg (by omega), hfresh k (by omega)]
        · rw [dbInsert_jobs] at h
          by_cases hk : k = db.nextId
          · rw [if_pos hk] at h
            cases h
            exact ⟨Or.inl rfl, rfl, rfl⟩
          · rw [if_neg hk] at h
            exact hmock hm k j h
        · rw [dbInsert_jobs] at h
          by_cases hk : k = db.nextId
          · rw [if_pos hk] at h
            cases h
            exact errOk_none rfl (by simp)
          · rw [if_neg hk] at h
            exact herr k j h
      | true =>
        have hstep : step cfg db (.submit u f c) =
            dbUpdate (dbInsert db ⟨u, secure_filename f, "queued", none, none⟩).1 db.nextId
              (ippApply cfg c) :=
          stepSubmit_fst_ipp cfg u f c db hf hm
        rw [hstep]
        refine ⟨fun k hk => ?_, fun hc _ _ _ => ?_, fun k j h => ?_⟩
        · rw [dbUpdate_nextId, dbInsert_fst_nextId] at hk
          rw [dbUpdate_jobs, dbInsert_jobs, if_neg (by omega), if_neg (by omega),
            hfresh k (by omega)]
        · rw [hm] at hc
          simp at hc
        · rw [dbUpdate_jobs, dbInsert_jobs] at h
          by_cases hk : k = db.nextId
          · rw [if_pos hk, if_pos hk, Option.map_some'] at h
            cases h
            exact errOk_ippApply cfg c _ rfl
          · rw [if_neg hk, if_neg hk] at h
            exact herr k j h
  | mockComplete jid =>
    simp only [wfEventB, Bool.not_eq_true'] at he
    refine ⟨fun k hk => ?_, fun _ k j h => ?_, fun k j h => ?_⟩
    · rw [step, stepMockComplete, dbUpdate_nextId] at hk
      rw [step, stepMockComplete, dbUpdate_jobs, hfresh k hk]
      simp
    · rw [step, stepMockComplete, dbUpdate_jobs] at h
      by_cases hk : k = jid
      · rw [if_pos hk] at h
        obtain ⟨j0, hj0, hfj⟩ := Option.map_eq_some'.mp h
        obtain ⟨_, he0, hi0⟩ := hmock he k j0 hj0
        cases hfj
        exact ⟨Or.inr rfl, he0, hi0⟩
      · rw [if_neg hk] at h
        exact hmock he k j h
    · rw [step, stepMockComplete, dbUpdate_jobs] at h
      by_cases hk : k = jid
      · rw [if_pos hk] at h
        obtain ⟨j0, hj0, hfj⟩ := Option.map_eq_some'.mp h
        obtain ⟨_, he0, _⟩ := hmock he k j0 hj0
        cases hfj
        exact errOk_none (by simpa using he0) (by simp)
      · rw [if_neg hk] at h
        exact herr k j h

theorem inv_run (cfg : Config) (tr : List Event) :
    ∀ db, Inv cfg db → WF cfg tr → Inv cfg (run cfg db tr) := by
  induction tr with
  | nil => exact fun db h _ => h
  | cons e es ih =>
    intro db hinv hwf
    exact ih (step cfg db e) (inv_step cfg db e hinv (hwf e (List.mem_cons_self e es)))
      fun x hx => hwf x (List.mem_cons_of_mem e hx)

theorem inv_reach (cfg : Config) (tr : List Event) (hwf : WF cfg tr) :
    Inv cfg (run cfg initDB tr) :=
  inv_run cfg tr initDB (inv_init cfg) hwf

theorem ippApply_filename (cfg : Config) (c : ClientResult) (job : PrintJob) :
    (ippApply cfg c job).filename = job.filename := by
  simp only [ippApply]
  split <;> rfl

theorem ippApply_user (cfg : Config) (c : ClientResult) (job : PrintJob) :
    (ippApply cfg c job).user_id = job.user_id := by
  simp only [ippApply]
  split <;> rfl

theorem mockComplete_noop (db : DB) (jid : Nat) (j : PrintJob)
    (hj : db.jobs jid = some j) (hcomp : j.status = "completed") :
    stepMockComplete db jid = db := by
  obtain ⟨jobsF, n⟩ := db
  simp only [stepMockComplete, dbUpdate]
  congr 1
  funext k
  by_cases hk : k = jid
  · subst hk
    simp only at hj
    rw [if_pos rfl, hj, Option.map_some', status_set_self j _ hcomp]
  · rw [if_neg hk]

theorem findJobToken_eq_some (l : List String) (j : String) :
    findJobToken l = some j ↔
      ∃ l1 p l2, l = l1 ++ p :: l2 ∧ isJobToken p = true ∧
        (∀ q ∈ l1, isJobToken q = false) ∧ j = String.mk (pyStrip p.data) := by
  induction l with
  | nil =>
    simp [findJobToken]
  | cons a t ih =>
    by_cases ha : isJobToken a = true
    · rw [findJobToken, if_pos ha]
      constructor
      · intro h
        injection h with h2
        exact ⟨[], a, t, rfl, ha, fun q hq => absurd hq (List.not_mem_nil q), h2.symm⟩
      · rintro ⟨l1, p, l2, heq, hp, hnone, hj⟩
        cases l1 with
        | nil =>
          injection heq with h1 h2
          rw [hj, h1]
        | cons b l1t =>
          injection heq with h1 h2
          have hb := hnone b (List.mem_cons_self b l1t)
          rw [h1, hb] at ha
          cases ha
    · have ha2 : isJobToken a = false := by simpa using ha
      rw [findJobToken, if_neg ha, ih]
      constructor
      · rintro ⟨l1, p, l2, heq, hp, hnone, hj⟩
        refine ⟨a :: l1, p, l2, by rw [heq]; rfl, hp, ?_, hj⟩
        intro q hq
        rcases List.mem_cons.mp hq with rfl | hq2
        · exact ha2
        · exact hnone q hq2
      · rintro ⟨l1, p, l2, heq, hp, hnone, hj⟩
        cases l1 with
        | nil =>
          injection heq with h1 h2
          rw [h1] at ha2
          rw [hp] at ha2
          cases ha2
        | cons b l1t =>
          injection heq with h1 h2
          exact ⟨l1t, p, l2, h2, hp, fun q hq => hnone q (List.mem_cons_of_mem b hq), hj⟩

theorem failed_ne_printing : ("failed" : String) ≠ "printing" := by decide

/-- C1: once a job's status is terminal (`completed` or `failed`), no later
operation — a further submission or a duplicate/racing mock-completion signal
for the same job id — changes its record, and a second completion signal is a
no-op on the whole store. -/
theorem queued_exit_at_most_once (cfg : Config) (tr : List Event) (e : Event) (jid : Nat)
    (j : PrintJob) (hwf : WF cfg tr) (he : wfEventB cfg e = true)
    (hj : (run cfg initDB tr).jobs jid = some j)
    (hterm : j.status = "completed" ∨ j.status = "failed") :
    (step cfg (run cfg initDB tr) e).jobs jid = some j ∧
    (j.status = "completed" →
      stepMockComplete (run cfg initDB tr) jid = run cfg initDB tr) := by
  obtain ⟨hfresh, hmock, herr⟩ := inv_reach cfg tr hwf
  refine ⟨?_, fun hcomp => mockComplete_noop _ jid j hj hcomp⟩
  have hlt : jid < (run cfg initDB tr).nextId := by
    by_contra hge
    rw [hfresh jid (by omega)] at hj
    cases hj
  cases e with
  | submit u f c =>
    by_cases hf : f = ""
    · simpa [step, stepSubmit, hf] using hj
    · by_cases hm : cfg.enableIPP
      · rw [step, stepSubmit_fst_ipp cfg u f c _ hf hm, dbUpdate_jobs, dbInsert_jobs,
          if_neg (by omega), if_neg (by omega)]
        exact hj
      · rw [step, stepSubmit_fst_mock cfg u f c _ hf (by simpa using hm), dbInsert_jobs,
          if_neg (by omega)]
        exact hj
  | mockComplete k =>
    have hmf : cfg.enableIPP = false := by simpa [wfEventB, Bool.not_eq_true'] using he
    by_cases hk : jid = k
    · subst hk
      rw [step, stepMockComplete, dbUpdate_jobs, if_pos rfl, hj, Option.map_some']
      have hq : j.status = "completed" := by
        rcases (hmock hmf jid j hj).1 with hs | hs
        · rcases hterm with ht | ht <;> rw [hs] at ht <;> exact absurd ht (by decide)
        · exact hs
      rw [status_set_self j _ hq]
    · rw [step, stepMockComplete, dbUpdate_jobs, if_neg hk]
      exact hj

/-- C1 witness: a concrete mock-mode history in which job 1 is completed and
a duplicate completion signal leaves the store unchanged. -/
theorem queued_exit_at_most_once_witness :
    (step cfgMock (run cfgMock initDB demoTr) (.mockComplete 1)).jobs 1 =
      some ⟨1, "a.txt", "completed", none, none⟩ ∧
    stepMockComplete (run cfgMock initDB demoTr) 1 = run cfgMock initDB demoTr := by
  have h := queued_exit_at_most_once cfgMock demoTr (.mockComplete 1) 1
    ⟨1, "a.txt", "completed", none, none⟩ (by decide) (by decide) (by decide) (Or.inl rfl)
  exact ⟨h.1, h.2 rfl⟩

/-- C2 counterexample: on an output with two tokens matching the heuristic the
code extracts the FIRST one, not the last one the spec names. -/
theorem extract_last_token_counterexample :
    extractJobId "req-1 req-2" = some "req-1" ∧
    extractJobIdSpec "req-1 req-2" = some "req-2" ∧
    extractJobId "req-1 req-2" ≠ extractJobIdSpec "req-1 req-2" := by decide

/-- C2 (amended): the extracted backend job identifier is the FIRST
whitespace-delimited token that contains a separator and ends in a numeric
suffix (stripped), and every earlier token fails the heuristic. -/
theorem extract_first_token_policy (out : String) (j : String) :
    extractJobId out = some j ↔
      ∃ l1 p l2, pySplitWS out = l1 ++ p :: l2 ∧ isJobToken p = true ∧
        (∀ q ∈ l1, isJobToken q = false) ∧ j = String.mk (pyStrip p.data) :=
  findJobToken_eq_some (pySplitWS out) j

/-- C3: with the Protocol Backend active and a target configured, a non-zero
client exit or a fault with a message marks the job `failed` — never
`printing` — recording `lp failed: <output>` resp. the fault's message. -/
theorem dispatch_failure_marks_failed (cfg : Config) (u : Nat) (fname : String)
    (c : ClientResult) (db : DB) (hipp : cfg.enableIPP = true)
    (htgt : cfg.printerName ≠ "" ∨ cfg.printerURI ≠ "") (hf : fname ≠ "")
    (hfail : (∃ out, c = .calledProcessError out) ∨ (∃ m, c = .fault m ∧ m ≠ "")) :
    ∃ j, (stepSubmit cfg u fname c db).1.jobs db.nextId = some j ∧
      j.status = "failed" ∧ j.status ≠ "printing" ∧
      (∀ out, c = .calledProcessError out → j.error = some ("lp failed: " ++ out)) ∧
      (∀ m, c = .fault m → j.error = some m) := by
  have hj : (stepSubmit cfg u fname c db).1.jobs db.nextId =
      some (ippApply cfg c ⟨u, secure_filename fname, "queued", none, none⟩) := by
    rw [stepSubmit_fst_ipp cfg u fname c db hf hipp, dbUpdate_jobs, dbInsert_jobs]
    simp
  rcases hfail with ⟨out, rfl⟩ | ⟨m, rfl, hm⟩
  · rw [ippApply_nonzero_exit cfg out _ hipp htgt] at hj
    refine ⟨_, hj, rfl, failed_ne_printing, fun out2 h => ?_, fun m2 h => ?_⟩
    · cases h
      rfl
    · cases h
  · rw [ippApply_fault cfg m _ hipp htgt hm] at hj
    refine ⟨_, hj, rfl, failed_ne_printing, fun out2 h => ?_, fun m2 h => ?_⟩
    · cases h
    · cases h
      rfl

/-- C3 witness: a concrete non-zero exit of the client. -/
theorem dispatch_failure_marks_failed_witness :
    ∃ j, (stepSubmit cfgIPP 1 "a.txt" (.calledProcessError "jam") initDB).1.jobs 1 = some j ∧
      j.status = "failed" ∧ j.status ≠ "printing" ∧
      (∀ out, ClientResult.calledProcessError "jam" = .calledProcessError out →
        j.error = some ("lp failed: " ++ out)) ∧
      (∀ m, ClientResult.calledProcessError "jam" = .fault m → j.error = some m) :=
  dispatch_failure_marks_failed cfgIPP 1 "a.txt" (.calledProcessError "jam") initDB rfl
    (Or.inl (by decide)) (by decide) (Or.inl ⟨"jam", rfl⟩)

/-- C4: a status query by a different user for an existing job returns
`notFound`, and that response is literally the response returned for a job id
that exists in no store at all. -/
theorem status_query_hides_other_users (db : DB) (userA userB jobId : Nat) (j : PrintJob)
    (hAB : userA ≠ userB) (hj : db.jobs jobId = some j) (hown : j.user_id = userA) :
    job_status db userB jobId = .notFound ∧
    job_status db userB jobId = job_status initDB userB jobId := by
  have h1 : job_status db userB jobId = .notFound := by
    simp only [job_status, hj]
    rw [hown]
    simp [hAB]
  exact ⟨h1, by rw [h1]; rfl⟩

/-- C4 witness: user 2 queries user 1's job. -/
theorem status_query_hides_other_users_witness :
    job_status (run cfgIPP initDB demoTrIPP) 2 1 = .notFound ∧
    job_status (run cfgIPP initDB demoTrIPP) 2 1 = job_status initDB 2 1 :=
  status_query_hides_other_users (run cfgIPP initDB demoTrIPP) 1 2 1 demoFailedJob
    (by decide) (by decide) (by decide)

/-- C5: for every non-empty upload filename, submission returns the fresh job
id and creates the row, whatever the configuration and whatever the external
client does: dispatch faults never change the submission's result. -/
theorem submit_total (cfg : Config) (u : Nat) (fname : String) (c : ClientResult) (db : DB)
    (hf : fname ≠ "") :
    (stepSubmit cfg u fname c db).2 = some db.nextId ∧
    ∃ j, (stepSubmit cfg u fname c db).1.jobs db.nextId = some j := by
  refine ⟨stepSubmit_snd cfg u fname c db hf, ?_⟩
  by_cases hm : cfg.enableIPP
  · have hj : (stepSubmit cfg u fname c db).1.jobs db.nextId =
        some (ippApply cfg c ⟨u, secure_filename fname, "queued", none, none⟩) := by
      rw [stepSubmit_fst_ipp cfg u fname c db hf hm, dbUpdate_jobs, dbInsert_jobs]
      simp
    exact ⟨_, hj⟩
  · have hj : (stepSubmit cfg u fname c db).1.jobs db.nextId =
        some ⟨u, secure_filename fname, "queued", none, none⟩ := by
      rw [stepSubmit_fst_mock cfg u fname c db hf (by simpa using hm), dbInsert_jobs,
        if_pos rfl]
    exact ⟨_, hj⟩

/-- C5 witness: a faulting dispatch still yields a job id. -/
theorem submit_total_witness :
    (stepSubmit cfgIPP 1 "a.txt" (.fault "boom") initDB).2 = some 1 ∧
    ∃ j, (stepSubmit cfgIPP 1 "a.txt" (.fault "boom") initDB).1.jobs 1 = some j :=
  submit_total cfgIPP 1 "a.txt" (.fault "boom") initDB (by decide)

/-- C6: in every reachable job state the `error` field is non-empty exactly
when the status is `failed`. -/
theorem error_iff_failed (cfg : Config) (tr : List Event) (jid : Nat) (j : PrintJob)
    (hwf : WF cfg tr) (hj : (run cfg initDB tr).jobs jid = some j) :
    (∃ m, j.error = some m ∧ m ≠ "") ↔ j.status = "failed" := by
  have herr := (inv_reach cfg tr hwf).2.2 jid j hj
  cases hje : j.error with
  | none =>
    have hns : j.status ≠ "failed" := by simpa [errOk, hje] using herr
    exact iff_of_false (by simp) hns
  | some m =>
    have hp : m ≠ "" ∧ j.status = "failed" := by simpa [errOk, hje] using herr
    exact iff_of_true ⟨m, rfl, hp.1⟩ hp.2

/-- C6 witness: the failed job of the concrete IPP trace. -/
theorem error_iff_failed_witness :
    (∃ m, demoFailedJob.error = some m ∧ m ≠ "") ↔ demoFailedJob.status = "failed" :=
  error_iff_failed cfgIPP demoTrIPP 1 demoFailedJob (by decide) (by decide)

/-- C7: Protocol Backend enabled with neither printer name nor URI configured:
submission still returns the job id and the job is `failed` with the
configuration error message. -/
theorem missing_printer_config_fails (cfg : Config) (u : Nat) (fname : String)
    (c : ClientResult) (db : DB) (hipp : cfg.enableIPP = true)
    (hname : cfg.printerName = "") (huri : cfg.printerURI = "") (hf : fname ≠ "") :
    (stepSubmit cfg u fname c db).2 = some db.nextId ∧
    (stepSubmit cfg u fname c db).1.jobs db.nextId =
      some ⟨u, secure_filename fname, "failed",
        some "No PRINTER_URI or PRINTER_NAME configured", none⟩ := by
  refine ⟨stepSubmit_snd cfg u fname c db hf, ?_⟩
  rw [stepSubmit_fst_ipp cfg u fname c db hf hipp, dbUpdate_jobs, dbInsert_jobs]
  simp [ippApply_config_error cfg c _ hipp hname huri]

/-- C7 witness: IPP enabled with no target configured. -/
theorem missing_printer_config_fails_witness :
    (stepSubmit ⟨true, "", ""⟩ 1 "a.txt" (.success "") initDB).2 = some 1 ∧
    (stepSubmit ⟨true, "", ""⟩ 1 "a.txt" (.success "") initDB).1.jobs 1 =
      some ⟨1, secure_filename "a.txt", "failed",
        some "No PRINTER_URI or PRINTER_NAME configured", none⟩ :=
  missing_printer_config_fails ⟨true, "", ""⟩ 1 "a.txt" (.success "") initDB rfl rfl rfl
    (by decide)

/-- C8: a successful client exit whose output has no token matching the
heuristic still moves the job to `printing` with an empty backend job id. -/
theorem success_without_token_prints (cfg : Config) (u : Nat) (fname : String) (db : DB)
    (out : String) (hipp : cfg.enableIPP = true)
    (htgt : cfg.printerName ≠ "" ∨ cfg.printerURI ≠ "") (hf : fname ≠ "")
    (hnone : extractJobId out = none) :
    (stepSubmit cfg u fname (.success out) db).2 = some db.nextId ∧
    (stepSubmit cfg u fname (.success out) db).1.jobs db.nextId =
      some ⟨u, secure_filename fname, "printing", none, some ""⟩ := by
  refine ⟨stepSubmit_snd cfg u fname _ db hf, ?_⟩
  rw [stepSubmit_fst_ipp cfg u fname _ db hf hipp, dbUpdate_jobs, dbInsert_jobs]
  simp [ippApply_success cfg out _ hipp htgt, hnone]

/-- C8 witness: client output with no identifier-like token. -/
theorem success_without_token_prints_witness :
    (stepSubmit cfgIPP 1 "a.txt" (.success "queued ok") initDB).2 = some 1 ∧
    (stepSubmit cfgIPP 1 "a.txt" (.success "queued ok") initDB).1.jobs 1 =
      some ⟨1, secure_filename "a.txt", "printing", none, some ""⟩ :=
  success_without_token_prints cfgIPP 1 "a.txt" initDB "queued ok" rfl (Or.inl (by decide))
    (by decide) (by decide)

/-- C9: with the Simulated Backend active, a submitted job is created as
`queued` with no error, and when its completion signal fires — after any
further well-formed activity — the job is `completed` with `error` empty. -/
theorem mock_backend_completes (cfg : Config) (tr tr2 : List Event) (u : Nat)
    (fname : String) (c : ClientResult) (hm : cfg.enableIPP = false) (hwf : WF cfg tr)
    (hwf2 : WF cfg tr2) (hf : fname ≠ "") :
    (stepSubmit cfg u fname c (run cfg initDB tr)).2 = some (run cfg initDB tr).nextId ∧
    (stepSubmit cfg u fname c (run cfg initDB tr)).1.jobs (run cfg initDB tr).nextId =
      some ⟨u, secure_filename fname, "queued", none, none⟩ ∧
    ∃ j, (stepMockComplete (run cfg (stepSubmit cfg u fname c (run cfg initDB tr)).1 tr2)
        (run cfg initDB tr).nextId).jobs (run cfg initDB tr).nextId = some j ∧
      j.status = "completed" ∧ j.error = none := by
  have hq : (stepSubmit cfg u fname c (run cfg initDB tr)).1.jobs (run cfg initDB tr).nextId =
      some ⟨u, secure_filename fname, "queued", none, none⟩ := by
    rw [stepSubmit_fst_mock cfg u fname c _ hf hm, dbInsert_jobs, if_pos rfl]
  refine ⟨stepSubmit_snd cfg u fname c _ hf, hq, ?_⟩
  have hinv1 : Inv cfg (stepSubmit cfg u fname c (run cfg initDB tr)).1 :=
    inv_step cfg (run cfg initDB tr) (.submit u fname c) (inv_reach cfg tr hwf) rfl
  have hinv2 := inv_run cfg tr2 _ hinv1 hwf2
  obtain ⟨j2, hj2⟩ := run_preserves cfg tr2 _ _ _ hq
  refine ⟨{ j2 with status := "completed" }, ?_, rfl, ?_⟩
  · rw [stepMockComplete, dbUpdate_jobs, if_pos rfl, hj2, Option.map_some']
  · exact (hinv2.2.1 hm _ j2 hj2).2.1

/-- C9 witness: immediate submission and completion in mock mode. -/
theorem mock_backend_completes_witness :
    (stepSubmit cfgMock 1 "a.txt" (.success "") initDB).2 = some 1 ∧
    (stepSubmit cfgMock 1 "a.txt" (.success "") initDB).1.jobs 1 =
      some ⟨1, secure_filename "a.txt", "queued", none, none⟩ ∧
    ∃ j, (stepMockComplete (run cfgMock (stepSubmit cfgMock 1 "a.txt" (.success "") initDB).1 [])
        1).jobs 1 = some j ∧ j.status = "completed" ∧ j.error = none :=
  mock_backend_completes cfgMock [] [] 1 "a.txt" (.success "") rfl (by decide) (by decide)
    (by decide)

/-- C10: the filename stored on the job (and served back by the status query)
is the sanitized transform of the uploaded name, and a non-empty uploaded
name whose sanitization is empty is still accepted, so the stored filename
can be the empty string. -/
theorem filename_sanitized :
    (∀ cfg u fname c db, fname ≠ "" →
      (stepSubmit cfg u fname c db).2 = some db.nextId ∧
      ∃ j, (stepSubmit cfg u fname c db).1.jobs db.nextId = some j ∧
        j.filename = secure_filename fname ∧
        job_status (stepSubmit cfg u fname c db).1 u db.nextId = .ok db.nextId j) ∧
    ("???" ≠ "" ∧ secure_filename "???" = "") := by
  refine ⟨?_, by decide, by decide⟩
  intro cfg u fname c db hf
  refine ⟨stepSubmit_snd cfg u fname c db hf, ?_⟩
  by_cases hm : cfg.enableIPP
  · have hj : (stepSubmit cfg u fname c db).1.jobs db.nextId =
        some (ippApply cfg c ⟨u, secure_filename fname, "queued", none, none⟩) := by
      rw [stepSubmit_fst_ipp cfg u fname c db hf hm, dbUpdate_jobs, dbInsert_jobs]
      simp
    refine ⟨_, hj, ippApply_filename cfg c _, ?_⟩
    simp only [job_status, hj]
    rw [ippApply_user]
    simp
  · have hj : (stepSubmit cfg u fname c db).1.jobs db.nextId =
        some ⟨u, secure_filename fname, "queued", none, none⟩ := by
      rw [stepSubmit_fst_mock cfg u fname c db hf (by simpa using hm), dbInsert_jobs,
        if_pos rfl]
    refine ⟨_, hj, rfl, ?_⟩
    simp only [job_status, hj]
    simp

/-- C10 witness: an all-punctuation uploaded name sanitizes to the empty
string yet the submission succeeds and stores it. -/
theorem filename_sanitized_witness :
    (stepSubmit cfgMock 7 "???" (.success "") initDB).2 = some 1 ∧
    ∃ j, (stepSubmit cfgMock 7 "???" (.success "") initDB).1.jobs 1 = some j ∧
      j.filename = secure_filename "???" ∧
      job_status (stepSubmit cfgMock 7 "???" (.success "") initDB).1 7 1 = .ok 1 j :=
  filename_sanitized.1 cfgMock 7 "???" (.success "") initDB (by decide)

/-- C2 witness: the first-match characterization instantiated on a concrete
output. -/
theorem extract_first_token_policy_witness :
    extractJobId "req-1 req-2" = some "req-1" ↔
      ∃ l1 p l2, pySplitWS "req-1 req-2" = l1 ++ p :: l2 ∧ isJobToken p = true ∧
        (∀ q ∈ l1, isJobToken q = false) ∧ "req-1" = String.mk (pyStrip p.data) :=
  extract_first_token_policy "req-1 req-2" "req-1"

end RemotePrinting
